import Mathlib

/-!
Shallow embedding of the primal-dual splitting solver hierarchy of
`pycsou/opt/solver/pds.py` (classes `PrimalDualSplitting`,
`ChambollePockSplitting`, `DouglasRachfordSplitting`,
`ForwardBackwardSplitting`), together with theorems settling the
specification claims about it.

Conventions of the embedding:
* NDArray values live in an abstract real vector space `V` (the Python code
  is unityped over arrays, so primal and dual points share the type).
* Machine floats are idealised as exact real numbers; a scalar that the code
  may leave at `None` is an `Option ℝ`, with `none` also standing for a
  non-finite value where the source tests `math.isfinite`.
* Fallible code returns `Except PyError`; `PyError.valueError` embeds the
  `ValueError`s raised by the source (the "ConfigurationError" of the design
  spec), `PyError.zeroDivisionError` the `ZeroDivisionError` Python raises
  on float division by zero, and `PyError.typeError` the `TypeError` hit when
  arithmetic is attempted on `None`.
* The mutable state dict `self._mstate` becomes the record `MState`, and the
  methods `m_init`/`m_step` become pure functions from state to state.
-/

namespace Pycsou

noncomputable section

/-- Exceptions raised by the embedded code paths. -/
inductive PyError where
  | valueError (msg : String)
  | zeroDivisionError
  | typeError (msg : String)
deriving DecidableEq

/-- Message of the `ValueError` raised by `set_beta` for non-positive `beta`. -/
def betaPosMsg : String := "beta must be positive."

/-- Message of the `ValueError` raised by `set_beta` when automatic inference fails. -/
def betaInferMsg : String := "beta: automatic inference not supported for operators with unbounded Lipschitz gradients."

/-- Message of the `ValueError` raised by `set_step_sizes` for non-positive `tau`. -/
def tauPosMsg : String := "tau must be positive."

/-- Message of the `ValueError` raised by `set_step_sizes` for non-positive `sigma`. -/
def sigmaPosMsg : String := "sigma must be positive."

/-- Message of the `ValueError` raised by `set_step_sizes` when the operator norm of K is not precomputed. -/
def opNormMsg : String := "Please compute the Lipschitz constant of the linear operator K by calling its method lipschitz()"

/-- Message of the `ValueError` raised by `__init__` on a K/h shape mismatch
(the source interpolates the two shapes into the message). -/
def shapeMismatchMsg : String := "Operator K is inconsistent with functional h."

/-- Message of the `ValueError` raised by `__init__` when f, g and h are all `None`. -/
def allNullMsg : String := "Cannot minimize always-0 functional. At least one of Parameter f, g, h must be specified."

/-- Message of the `TypeError` Python raises when `m_step` does arithmetic on an
absent dual variable. -/
def noneArithMsg : String := "unsupported operand type for NoneType."

variable {V : Type}

/-- Black box for the differentiable term `f` (`pyco.DiffFunc`): its gradient map
and its `_diff_lipschitz` attribute (`none` = not finite). -/
structure DiffFunc (V : Type) where
  grad : V → V
  diff_lipschitz : Option ℝ

/-- Black box for a proximable term (`pyco.ProxFunc`): `isNull` embeds the
`isinstance(-, pyclo.NullFunc)` test, `prox` the method `prox(arr, tau)` and
`fenchel_prox` the method `fenchel_prox(arr, sigma)`. -/
structure ProxFunc (V : Type) where
  isNull : Bool
  prox : V → ℝ → V
  fenchel_prox : V → ℝ → V

/-- Black box for the linear operator `K` (`pyco.LinOp`): forward map, adjoint,
the value its `adjoint` returns when handed the absent (`None`) dual variable
(zero for the null operator), and its `_lipschitz` attribute
(`none` = not finite). -/
structure LinOp (V : Type) where
  apply : V → V
  adjoint : V → V
  adjointNone : V
  lipschitz : Option ℝ

/-- `K.adjoint(mst["z"])` where the stored dual variable may be `None`. -/
def LinOp.adjointO (K : LinOp V) : Option V → V
  | some w => K.adjoint w
  | none => K.adjointNone

/-- The four term/operator black boxes a `PrimalDualSplitting` instance holds
(`self._f`, `self._g`, `self._h`, `self._K`). -/
structure PDSCfg (V : Type) where
  f : DiffFunc V
  g : ProxFunc V
  h : ProxFunc V
  K : LinOp V

/-- The solver state dict `self._mstate` as written by
`PrimalDualSplitting.m_init`. -/
structure MState (V : Type) where
  x : V
  x_prev : V
  z : Option V
  z_prev : Option V
  tau : ℝ
  sigma : ℝ
  rho : ℝ
  beta : ℝ

/-- `PrimalDualSplitting.set_beta`: return the user override after a positivity
check, else the (finite) `_diff_lipschitz` of `f`, else raise. -/
def set_beta (fDiffLip : Option ℝ) (beta : Option ℝ) : Except PyError ℝ :=
  match beta with
  | none =>
    match fDiffLip with
    | some dl => .ok dl
    | none => .error (.valueError betaInferMsg)
  | some b => if 0 < b then .ok b else .error (.valueError betaPosMsg)

/-- `PrimalDualSplitting.set_step_sizes`: resolve the primal/dual step sizes
from the overrides `tau`, `sigma`, the resolved `beta`, the nullity of `h` and
the `_lipschitz` attribute of `K`.  A division by a zero operator norm raises
`ZeroDivisionError`, exactly as `1 / L ** 2` does in Python. -/
def set_step_sizes (tau sigma : Option ℝ) (beta : ℝ) (hNull : Bool)
    (Klip : Option ℝ) : Except PyError (ℝ × ℝ) :=
  match tau, sigma with
  | some t, none => if 0 < t then .ok (t, t) else .error (.valueError tauPosMsg)
  | none, some s => if 0 < s then .ok (s, s) else .error (.valueError sigmaPosMsg)
  | none, none =>
    if 0 < beta then
      if hNull then .ok (2 / beta, 0)
      else
        match Klip with
        | some L =>
          if L = 0 then .error .zeroDivisionError
          else .ok ((1 / L ^ 2) * (-beta / 4 + Real.sqrt (beta ^ 2 / 16 + L ^ 2)),
                    (1 / L ^ 2) * (-beta / 4 + Real.sqrt (beta ^ 2 / 16 + L ^ 2)))
        | none => .error (.valueError opNormMsg)
    else
      if hNull then .ok (1, 0)
      else
        match Klip with
        | some L => if L = 0 then .error .zeroDivisionError else .ok (1 / L, 1 / L)
        | none => .error (.valueError opNormMsg)
  | some t, some s => .ok (t, s)

/-- `PrimalDualSplitting.set_momentum_term`: the override if given (stored
without any validation), else `0.9` when `beta > 0` and `1` otherwise. -/
def set_momentum_term (rho : Option ℝ) (beta : ℝ) : ℝ :=
  match rho with
  | none => if 0 < beta then 0.9 else 1
  | some r => r

/-- `PrimalDualSplitting.set_dual_variable`: `None` when `h` is the null
functional, else the given `z0`, else a copy of the primal point. -/
def set_dual_variable (hNull : Bool) (x : V) (z : Option V) : Option V :=
  if hNull then none
  else
    match z with
    | none => some x
    | some zv => some zv

/-- `PrimalDualSplitting.m_init`: set `x`, `x_prev`, the dual variable, `beta`,
the step sizes and the momentum term, in the order of the source. -/
def m_init (cfg : PDSCfg V) (x0 : V) (z0 : Option V)
    (tau sigma rho beta : Option ℝ) : Except PyError (MState V) :=
  let z := set_dual_variable cfg.h.isNull x0 z0
  match set_beta cfg.f.diff_lipschitz beta with
  | .error e => .error e
  | .ok b =>
    match set_step_sizes tau sigma b cfg.h.isNull cfg.K.lipschitz with
    | .error e => .error e
    | .ok ts => .ok ⟨x0, x0, z, z, ts.1, ts.2, set_momentum_term rho b, b⟩

variable [AddCommGroup V] [Module ℝ V]

/-- `PrimalDualSplitting.m_step`: the single per-iteration update.
`x_temp = g.prox(x - tau * f.grad(x) - tau * K.adjoint(z), tau)`; when `h` is
not the null functional, `u = 2 * x_temp - x`,
`z_temp = h.fenchel_prox(z + sigma * K(u), sigma)` and
`z = rho * z_temp + (1 - rho) * z`; finally
`x = rho * x_temp + (1 - rho) * x`.  Arithmetic on an absent dual variable in
the non-null branch raises `TypeError`, as in Python. -/
def m_step (cfg : PDSCfg V) (mst : MState V) : Except PyError (MState V) :=
  let x_temp := cfg.g.prox
    (mst.x - mst.tau • cfg.f.grad mst.x - mst.tau • cfg.K.adjointO mst.z) mst.tau
  if cfg.h.isNull then
    .ok { mst with x := mst.rho • x_temp + (1 - mst.rho) • mst.x }
  else
    match mst.z with
    | none => .error (.typeError noneArithMsg)
    | some zv =>
      let u := (2 : ℝ) • x_temp - mst.x
      let z_temp := cfg.h.fenchel_prox (zv + mst.sigma • cfg.K.apply u) mst.sigma
      .ok { mst with
            z := some (mst.rho • z_temp + (1 - mst.rho) • zv),
            x := mst.rho • x_temp + (1 - mst.rho) • mst.x }

/-- `n` consecutive calls of `m_step`, stopping at the first exception. -/
def stepIter (cfg : PDSCfg V) : ℕ → MState V → Except PyError (MState V)
  | 0, st => .ok st
  | n + 1, st =>
    match m_step cfg st with
    | .ok s => stepIter cfg n s
    | .error e => .error e

/-! ### Constructor-time resolution (`PrimalDualSplitting.__init__`)

The constructor only looks at the presence of `f`, `g`, `h` and at the shapes
of `K` and `h`, so it is embedded over that data alone.  A `pyco.LinOp` shape
is the pair `(codomain dimension, domain dimension)` = `K.shape`; the
functional `h` contributes `h.shape[1]`, its domain dimension, which may be
`None` for a dimension-agnostic functional. -/

/-- Shape `(shape[0], shape[1]) = (codomain dim, domain dim)` of a linear
operator. -/
structure OpShape where
  codom : ℕ
  dom : ℕ
deriving DecidableEq

/-- What `self._K` holds after `__init__`: the identity operator (whose
`_lipschitz` attribute the constructor sets), the caller-supplied operator, or
the null operator. -/
inductive ResolvedK where
  | identityOp (lipschitz : ℝ)
  | given (K : OpShape)
  | nullOp

/-- The term/operator bookkeeping `__init__` leaves behind: nullity flags for
`self._f`, `self._g`, `self._h`, and `self._K` — `none` when the constructor
leaves the attribute unassigned. -/
structure InitCfg where
  fNull : Bool
  gNull : Bool
  hNull : Bool
  K : Option ResolvedK

/-- `PrimalDualSplitting.__init__`: `fPresent`/`gPresent` say whether `f`/`g`
were passed, `h = some hdim` means `h` was passed with `h.shape[1] = hdim`
(itself optional), `K` is the supplied operator shape if any.  Mirrors the
source: when `h` is present and `K` absent, `self._K` becomes the identity
with `_lipschitz = 1`; when `h` is present and `K` given, the shapes must
match unless `h.shape[1]` is `None`; when `h` is absent, `self._K` is set to
the null operator only if `K` is absent (otherwise the attribute is never
assigned); finally all-`None` terms are rejected. -/
def pds_init (fPresent gPresent : Bool) (h : Option (Option ℕ))
    (K : Option OpShape) : Except PyError InitCfg :=
  let resK : Except PyError (Option ResolvedK) :=
    match h, K with
    | some _, none => .ok (some (.identityOp 1))
    | some hdim, some k =>
      if some k.codom = hdim ∨ hdim = none then .ok (some (.given k))
      else .error (.valueError shapeMismatchMsg)
    | none, none => .ok (some .nullOp)
    | none, some _ => .ok none
  match resK with
  | .error e => .error e
  | .ok rk =>
    if fPresent = false ∧ gPresent = false ∧ h = none then
      .error (.valueError allNullMsg)
    else .ok ⟨!fPresent, !gPresent, h.isNone, rk⟩

/-! ### Variant initialisation (`ChambollePockSplitting.m_init`,
`DouglasRachfordSplitting.m_init`, `ForwardBackwardSplitting.m_init`)

The variant `m_init` methods write raw (possibly `None`) values into the state
dict, so their result record carries `Option ℝ` scalars; a key the method
never writes is `none`. -/

/-- The state dict as written by a variant `m_init` (scalar entries may be
absent or `None`). -/
structure VariantState (V : Type) where
  x : V
  x_prev : V
  z : Option V
  z_prev : Option V
  tau : Option ℝ
  sigma : Option ℝ
  rho : Option ℝ
  beta : Option ℝ

/-- `ChambollePockSplitting.m_init`: stores `tau` (signature default `1.0`),
`sigma` and `rho` exactly as given; never writes `beta`. -/
def cps_m_init (hNull : Bool) (x0 : V) (z0 : Option V)
    (tau sigma rho : Option ℝ) : VariantState V :=
  let z := set_dual_variable hNull x0 z0
  ⟨x0, x0, z, z, tau, sigma, rho, none⟩

/-- `DouglasRachfordSplitting.m_init`: stores `tau` (signature default `1.0`),
`sigma = 1.0 / tau` and `rho = 1.0`; never writes `beta`. -/
def drs_m_init (hNull : Bool) (x0 : V) (z0 : Option V) (tau : ℝ) :
    VariantState V :=
  let z := set_dual_variable hNull x0 z0
  ⟨x0, x0, z, z, some tau, some (1 / tau), some 1, none⟩

/-- `ForwardBackwardSplitting.m_init`: stores `tau` exactly as given (signature
default `None`), `beta` through `set_beta`, and `rho` (signature default
`1.0`); never writes `sigma`. -/
def fbs_m_init (fDiffLip : Option ℝ) (x0 : V) (z0 : Option V)
    (tau rho beta : Option ℝ) : Except PyError (VariantState V) :=
  let z := set_dual_variable true x0 z0
  match set_beta fDiffLip beta with
  | .error e => .error e
  | .ok b => .ok ⟨x0, x0, z, z, tau, none, rho, some b⟩

/-! ### Concrete instances for the spec scenario

The scenario of claim C2: `N = M = 1`, `F(x) = x ^ 2` (so `grad F x = 2 * x`
and `beta = 2`), `G` and `H` null, no `K`. -/

/-- The differentiable term `F(x) = x ^ 2` with `_diff_lipschitz = 2`. -/
def fSq : DiffFunc ℝ := ⟨fun x => 2 * x, some 2⟩

/-- Modelled from the spec: `pyclo.NullFunc` (module `pycsou.linop.base`, not
under `src/`) is the zero functional stand-in used when a term is absent; per
the spec it contributes an identity proximal map.  Its `fenchel_prox` is never
invoked by the solver (the dual branch is guarded by the nullity test); it is
modelled as the identity as well. -/
def nullFunc : ProxFunc ℝ := ⟨true, fun x _ => x, fun x _ => x⟩

/-- Modelled from the spec: `pyclo.NullOp` (module `pycsou.linop.base`, not
under `src/`) is the zero operator stand-in: apply and adjoint return zero
(also on the absent dual variable), with zero operator norm. -/
def nullOp : LinOp ℝ := ⟨fun _ => 0, fun _ => 0, 0, some 0⟩

/-- The C2 scenario configuration: `f = fSq`, `g`, `h` null, `K` the null
operator (as `__init__` resolves it when `h` and `K` are both absent). -/
def cfgC2 : PDSCfg ℝ := ⟨fSq, nullFunc, nullFunc, nullOp⟩

/-- The state `m_init` produces for the C2 scenario from `x0 = 5` with no
overrides: `tau = 2 / beta = 1`, `sigma = 0`, `rho = 0.9`, `beta = 2`, no dual
variable. -/
def stC2 : MState ℝ := ⟨5, 5, none, none, 1, 0, 0.9, 2⟩

/-- The state after one `m_step` of the C2 scenario: only `x` changes,
to `-4`. -/
def stC2' : MState ℝ := ⟨-4, 5, none, none, 1, 0, 0.9, 2⟩

lemma m_init_cfgC2_eval :
    m_init cfgC2 (5 : ℝ) none none none none none = .ok stC2 := by
  simp only [m_init, set_beta, set_step_sizes, set_dual_variable,
    set_momentum_term, cfgC2, fSq, nullFunc, nullOp, stC2]
  norm_num

lemma m_step_cfgC2_eval : m_step cfgC2 stC2 = .ok stC2' := by
  simp only [m_step, cfgC2, fSq, nullFunc, nullOp, stC2, stC2', LinOp.adjointO]
  norm_num

/-! ### Claim theorems -/

/-- C1: a single `m_step` computes
`x_temp = g.prox(x - tau * f.grad(x) - tau * K.adjoint(z), tau)`; exactly when
`h` is non-null it computes `u = 2 * x_temp - x` and
`z_temp = h.fenchel_prox(z + sigma * K(u), sigma)` and blends
`z = rho * z_temp + (1 - rho) * z` — the dual update reading the pre-update
`x` through `u` — and in every case it finally blends
`x = rho * x_temp + (1 - rho) * x`; when `h` is null no dual field changes. -/
theorem C1_step_equations (cfg : PDSCfg V) (st : MState V) (zv : V)
    (hz : st.z = some zv) :
    (cfg.h.isNull = false →
      m_step cfg st = .ok { st with
        x := st.rho • cfg.g.prox
              (st.x - st.tau • cfg.f.grad st.x - st.tau • cfg.K.adjoint zv) st.tau
            + (1 - st.rho) • st.x,
        z := some (st.rho • cfg.h.fenchel_prox
              (zv + st.sigma • cfg.K.apply
                ((2 : ℝ) • cfg.g.prox
                  (st.x - st.tau • cfg.f.grad st.x - st.tau • cfg.K.adjoint zv)
                  st.tau - st.x)) st.sigma
            + (1 - st.rho) • zv) }) ∧
    (cfg.h.isNull = true →
      m_step cfg st = .ok { st with
        x := st.rho • cfg.g.prox
              (st.x - st.tau • cfg.f.grad st.x - st.tau • cfg.K.adjoint zv) st.tau
            + (1 - st.rho) • st.x }) := by
  constructor
  · intro hH
    simp [m_step, LinOp.adjointO, hz, hH]
  · intro hH
    simp [m_step, LinOp.adjointO, hz, hH]

/-- The term/operator black boxes used to witness C1: a non-null `h` and the
identity as `K`. -/
def hIdFunc : ProxFunc ℝ := ⟨false, fun x _ => x, fun x _ => x⟩

/-- Identity operator instance for the C1 witness. -/
def idOpW : LinOp ℝ := ⟨fun x => x, fun x => x, 0, some 1⟩

/-- Configuration witnessing C1 (non-null `h`). -/
def cfgW : PDSCfg ℝ := ⟨fSq, nullFunc, hIdFunc, idOpW⟩

/-- State witnessing C1, with dual variable `some 2`. -/
def stW : MState ℝ := ⟨1, 1, some 2, some 2, 1, 1, 1, 0⟩

/-- Witness for C1 at the concrete configuration `cfgW`, state `stW`:
`x_temp = 1 - 2 - 2 = -3`, `u = -7`, `z_temp = 2 - 7 = -5`, and with
`rho = 1` the new state is `x = -3`, `z = -5`. -/
theorem C1_step_equations_witness :
    stW.z = some 2 ∧
    m_step cfgW stW = .ok ⟨-3, 1, some (-5), some 2, 1, 1, 1, 0⟩ := by
  refine ⟨rfl, ?_⟩
  have h := (C1_step_equations cfgW stW 2 rfl).1 rfl
  rw [h]
  simp only [cfgW, stW, fSq, nullFunc, hIdFunc, idOpW]
  norm_num

/-- C2: in the scenario `F(x) = x ^ 2` (`beta = 2`), `G`, `H` null, no `K`,
initialisation from `x0 = 5` with no overrides resolves `tau = 2 / beta = 1`
and `rho = 0.9`, and one step produces
`x_temp = 5 - 1 * (2 * 5) = -5`, then `x = 0.9 * (-5) + 0.1 * 5 = -4` (only
`x` changes in the state). -/
theorem C2_concrete_scenario :
    m_init cfgC2 (5 : ℝ) none none none none none = .ok stC2 ∧
    stC2.tau = 1 ∧ stC2.rho = 0.9 ∧
    m_step cfgC2 stC2 = .ok stC2' ∧ stC2'.x = -4 :=
  ⟨m_init_cfgC2_eval, rfl, rfl, m_step_cfgC2_eval, rfl⟩

/-- A null `h` makes `m_step` a pure primal update leaving every other state
field unchanged. -/
lemma m_step_null_h (cfg : PDSCfg V) (hH : cfg.h.isNull = true)
    (st : MState V) :
    m_step cfg st = .ok { st with
      x := st.rho • cfg.g.prox
            (st.x - st.tau • cfg.f.grad st.x - st.tau • cfg.K.adjointO st.z)
            st.tau
          + (1 - st.rho) • st.x } := by
  simp [m_step, hH]

/-- Iterating `m_step` under a null `h` never errors and never touches the
dual fields. -/
lemma stepIter_null_h (cfg : PDSCfg V) (hH : cfg.h.isNull = true) (n : ℕ)
    (st : MState V) (hz : st.z = none) (hzp : st.z_prev = none) :
    ∃ s, stepIter cfg n st = .ok s ∧ s.z = none ∧ s.z_prev = none := by
  induction n generalizing st with
  | zero => exact ⟨st, rfl, hz, hzp⟩
  | succ n ih =>
    simp only [stepIter, m_step_null_h cfg hH st]
    exact ih _ hz hzp

/-- C4: with `h` null, initialisation stores `None` for the dual variable and
any number of `m_step` calls leaves both dual-state fields absent (the dual
branch of the update, which would populate `z`, is never taken). -/
theorem C4_no_dual_mutation (cfg : PDSCfg V) (hH : cfg.h.isNull = true)
    (x0 : V) (z0 : Option V) (tau sigma rho beta : Option ℝ) (st : MState V)
    (hinit : m_init cfg x0 z0 tau sigma rho beta = .ok st) (n : ℕ) :
    st.z = none ∧ st.z_prev = none ∧
    ∃ s, stepIter cfg n st = .ok s ∧ s.z = none ∧ s.z_prev = none := by
  have hdual : set_dual_variable cfg.h.isNull x0 z0 = none := by
    simp [set_dual_variable, hH]
  have hz : st.z = none ∧ st.z_prev = none := by
    simp only [m_init] at hinit
    rcases hb : set_beta cfg.f.diff_lipschitz beta with e | b <;>
      simp only [hb] at hinit
    · exact Except.noConfusion hinit
    · rcases hts : set_step_sizes tau sigma b cfg.h.isNull cfg.K.lipschitz with
        e | ts <;> simp only [hts] at hinit
      · exact Except.noConfusion hinit
      · cases hinit
        exact ⟨hdual, hdual⟩
  exact ⟨hz.1, hz.2, stepIter_null_h cfg hH n st hz.1 hz.2⟩

/-- Witness for C4 at the C2 scenario with three steps. -/
theorem C4_no_dual_mutation_witness :
    cfgC2.h.isNull = true ∧
    m_init cfgC2 (5 : ℝ) none none none none none = .ok stC2 ∧
    (stC2.z = none ∧ stC2.z_prev = none ∧
      ∃ s, stepIter cfgC2 3 stC2 = .ok s ∧ s.z = none ∧ s.z_prev = none) :=
  ⟨rfl, m_init_cfgC2_eval,
    C4_no_dual_mutation cfgC2 rfl 5 none none none none none stC2
      m_init_cfgC2_eval 3⟩

/-- C7 (amended): `m_step` mutates only `x` (and `z` when `h` is non-null);
in particular `x_prev`, `z_prev` and the scalar parameters keep the values
they were given at initialisation, and under a null `h` even `z` is
untouched. -/
theorem C7_frame_effect (cfg : PDSCfg V) (st s : MState V)
    (h : m_step cfg st = .ok s) :
    s.x_prev = st.x_prev ∧ s.z_prev = st.z_prev ∧ s.tau = st.tau ∧
    s.sigma = st.sigma ∧ s.rho = st.rho ∧ s.beta = st.beta ∧
    (cfg.h.isNull = true → s.z = st.z) := by
  unfold m_step at h
  rcases hH : cfg.h.isNull with _ | _ <;> rw [hH] at h
  · rcases hzv : st.z with _ | zv <;> rw [hzv] at h
    · exact absurd h (by simp)
    · cases h
      simp
  · cases h
    simp

/-- Witness for C7 (amended) at the C2 scenario: one step changes `x` but no
other field. -/
theorem C7_frame_effect_witness :
    m_step cfgC2 stC2 = .ok stC2' ∧
    (stC2'.x_prev = stC2.x_prev ∧ stC2'.z_prev = stC2.z_prev ∧
      stC2'.tau = stC2.tau ∧ stC2'.sigma = stC2.sigma ∧
      stC2'.rho = stC2.rho ∧ stC2'.beta = stC2.beta ∧
      (cfgC2.h.isNull = true → stC2'.z = stC2.z)) :=
  ⟨m_step_cfgC2_eval, C7_frame_effect cfgC2 stC2 stC2' m_step_cfgC2_eval⟩

/-- C7 counterexample: the claim says each `step()` also updates `x_prev` to
the value `x` held before that step's blend.  In the C2 scenario the value of
`x` entering the second step is `-4`, so after two steps the claim requires
`x_prev = -4`; the code never writes `x_prev` in `m_step`, so after two steps
`x_prev` is still the initial `5` (and `x = 16 / 5`). -/
theorem C7_counterexample :
    stepIter cfgC2 2 stC2 = .ok ⟨16 / 5, 5, none, none, 1, 0, 0.9, 2⟩ ∧
    (5 : ℝ) ≠ -4 := by
  constructor
  · simp only [stepIter, m_step, cfgC2, fSq, nullFunc, nullOp, stC2,
      LinOp.adjointO]
    norm_num
  · norm_num

/-- C8 counterexample: a non-positive user-supplied momentum `rho = -1` is
returned (hence stored) by `set_momentum_term` without any error, and with
both step sizes supplied and non-positive, `set_step_sizes` returns them
as-is instead of failing. -/
theorem C8_counterexample :
    set_momentum_term (some (-1)) 2 = -1 ∧
    set_step_sizes (some (-3)) (some (-2)) 2 false (some 1) = .ok (-3, -2) :=
  ⟨rfl, rfl⟩

/-- C8 (amended): positivity is validated only when exactly one of `tau`,
`sigma` is supplied (the solver then fails on a non-positive value); when both
are supplied they are stored as-is with no validation, and a user-supplied
momentum `rho` is stored without any check. -/
theorem C8_validation_scope (t s r beta : ℝ) (hNull : Bool) (Klip : Option ℝ)
    (ht : t ≤ 0) (hs : s ≤ 0) :
    set_step_sizes (some t) none beta hNull Klip =
      .error (.valueError tauPosMsg) ∧
    set_step_sizes none (some s) beta hNull Klip =
      .error (.valueError sigmaPosMsg) ∧
    (∀ a b : ℝ, set_step_sizes (some a) (some b) beta hNull Klip = .ok (a, b)) ∧
    set_momentum_term (some r) beta = r := by
  refine ⟨?_, ?_, fun a b => rfl, rfl⟩
  · simp [set_step_sizes, not_lt.mpr ht]
  · simp [set_step_sizes, not_lt.mpr hs]

/-- Witness for C8 (amended) at `t = -1`, `s = 0`, `r = -1`, `beta = 2`. -/
theorem C8_validation_scope_witness :
    (-1 : ℝ) ≤ 0 ∧ (0 : ℝ) ≤ 0 ∧
    (set_step_sizes (some (-1)) none 2 false none =
        .error (.valueError tauPosMsg) ∧
      set_step_sizes none (some 0) 2 false none =
        .error (.valueError sigmaPosMsg) ∧
      (∀ a b : ℝ, set_step_sizes (some a) (some b) 2 false none = .ok (a, b)) ∧
      set_momentum_term (some (-1)) 2 = -1) :=
  ⟨by norm_num, le_refl 0,
    C8_validation_scope (-1) 0 (-1) 2 false none (by norm_num) (le_refl 0)⟩

/-- C9: when `h` and `K` are both supplied and `K.shape[0]` differs from the
specified domain dimension `h.shape[1]`, the constructor raises (the embedded
`ValueError` realising the design document's `ConfigurationError`) — the
mismatch is rejected at construction, before any iteration state exists. -/
theorem C9_shape_mismatch (fPresent gPresent : Bool) (d : ℕ) (k : OpShape)
    (hne : k.codom ≠ d) :
    pds_init fPresent gPresent (some (some d)) (some k) =
      .error (.valueError shapeMismatchMsg) := by
  simp [pds_init, hne]

/-- Witness for C9 at `K.shape = (3, 2)` against `h.shape[1] = 2`. -/
theorem C9_shape_mismatch_witness :
    (OpShape.mk 3 2).codom ≠ 2 ∧
    pds_init true false (some (some 2)) (some (OpShape.mk 3 2)) =
      .error (.valueError shapeMismatchMsg) :=
  ⟨by decide, C9_shape_mismatch true false 2 (OpShape.mk 3 2) (by decide)⟩

/-- C3 counterexample: the claim promises the closed-form step sizes for every
finite operator norm, but at the finite norm `0` (a zero operator supplied as
`K`) the source divides by `L ** 2 = 0` and Python raises
`ZeroDivisionError`, so resolution fails instead of returning the formula. -/
theorem C3_counterexample :
    set_step_sizes none none 1 false (some 0) = .error .zeroDivisionError := by
  norm_num [set_step_sizes]

/-- C3 (amended): with neither step size supplied, `h` non-null and a finite
nonzero operator norm `L`, resolution returns
`tau = sigma = (1 / L ^ 2) * (-beta / 4 + sqrt (beta ^ 2 / 16 + L ^ 2))` when
`beta > 0` — and this pair saturates the convergence inequality
`1 / tau - sigma * L ^ 2 ≥ beta / 2` — and returns `tau = sigma = 1 / L` when
`beta = 0`, satisfying `tau * sigma * L ^ 2 ≤ 1`; when the operator norm is
not finite, resolution fails with the precomputed-norm error. -/
theorem C3_step_size_resolution (beta L : ℝ) (hbeta : 0 ≤ beta) (hL : 0 < L) :
    (0 < beta →
      set_step_sizes none none beta false (some L) =
        .ok ((1 / L ^ 2) * (-beta / 4 + Real.sqrt (beta ^ 2 / 16 + L ^ 2)),
             (1 / L ^ 2) * (-beta / 4 + Real.sqrt (beta ^ 2 / 16 + L ^ 2))) ∧
      1 / ((1 / L ^ 2) * (-beta / 4 + Real.sqrt (beta ^ 2 / 16 + L ^ 2))) -
          ((1 / L ^ 2) * (-beta / 4 + Real.sqrt (beta ^ 2 / 16 + L ^ 2))) * L ^ 2
        ≥ beta / 2) ∧
    (beta = 0 →
      set_step_sizes none none beta false (some L) = .ok (1 / L, 1 / L) ∧
      (1 / L) * (1 / L) * L ^ 2 ≤ 1) ∧
    set_step_sizes none none beta false none =
      .error (.valueError opNormMsg) := by
  have hL0 : L ≠ 0 := ne_of_gt hL
  have hL2 : (0 : ℝ) < L ^ 2 := pow_pos hL 2
  refine ⟨fun hb => ⟨?_, ?_⟩, fun h0 => ?_, ?_⟩
  · simp [set_step_sizes, hb, hL0]
  · set s := Real.sqrt (beta ^ 2 / 16 + L ^ 2) with hs
    have hnn : (0 : ℝ) ≤ beta ^ 2 / 16 + L ^ 2 := by positivity
    have hs2 : s ^ 2 = beta ^ 2 / 16 + L ^ 2 := Real.sq_sqrt hnn
    have hlt : beta / 4 < s := by
      rw [hs]
      exact Real.lt_sqrt_of_sq_lt (by nlinarith)
    have ha : 0 < -beta / 4 + s := by linarith
    have ha' : -beta / 4 + s ≠ 0 := ne_of_gt ha
    have hdiv : L ^ 2 / (-beta / 4 + s) - (-beta / 4 + s) = beta / 2 := by
      rw [sub_eq_iff_eq_add, div_eq_iff ha']
      linear_combination -hs2
    have key : 1 / ((1 / L ^ 2) * (-beta / 4 + s)) -
        ((1 / L ^ 2) * (-beta / 4 + s)) * L ^ 2 = beta / 2 := by
      rw [show (1 / L ^ 2) * (-beta / 4 + s) = (-beta / 4 + s) / L ^ 2 by ring,
        one_div_div, div_mul_cancel₀ _ (ne_of_gt hL2)]
      exact hdiv
    exact ge_of_eq key
  · subst h0
    constructor
    · simp [set_step_sizes, hL0]
    · have : (1 / L) * (1 / L) * L ^ 2 = 1 := by field_simp; ring
      exact le_of_eq this
  · rcases hbeta.lt_or_eq with hb | hb
    · simp [set_step_sizes, hb]
    · simp [set_step_sizes, ← hb]

/-- Witness for C3 (amended) at `beta = 4`, `L = 3 / 4`: there
`sqrt (1 + 9 / 16) = 5 / 4` and `tau = sigma = 4 / 9`. -/
theorem C3_step_size_resolution_witness :
    (0 : ℝ) ≤ 4 ∧ (0 : ℝ) < 3 / 4 ∧
    ((0 < (4 : ℝ) →
      set_step_sizes none none 4 false (some (3 / 4)) =
        .ok ((1 / (3 / 4 : ℝ) ^ 2) *
              (-4 / 4 + Real.sqrt ((4 : ℝ) ^ 2 / 16 + (3 / 4) ^ 2)),
             (1 / (3 / 4 : ℝ) ^ 2) *
              (-4 / 4 + Real.sqrt ((4 : ℝ) ^ 2 / 16 + (3 / 4) ^ 2))) ∧
      1 / ((1 / (3 / 4 : ℝ) ^ 2) *
            (-4 / 4 + Real.sqrt ((4 : ℝ) ^ 2 / 16 + (3 / 4) ^ 2))) -
          ((1 / (3 / 4 : ℝ) ^ 2) *
            (-4 / 4 + Real.sqrt ((4 : ℝ) ^ 2 / 16 + (3 / 4) ^ 2))) * (3 / 4) ^ 2
        ≥ 4 / 2) ∧
    ((4 : ℝ) = 0 →
      set_step_sizes none none 4 false (some (3 / 4)) =
        .ok (1 / (3 / 4), 1 / (3 / 4)) ∧
      (1 / (3 / 4 : ℝ)) * (1 / (3 / 4)) * (3 / 4) ^ 2 ≤ 1) ∧
    set_step_sizes none none 4 false none =
      .error (.valueError opNormMsg)) :=
  ⟨by norm_num, by norm_num,
    C3_step_size_resolution 4 (3 / 4) (by norm_num) (by norm_num)⟩

/-- C5 (code evaluation): what the variant `m_init` methods store.  The
Chambolle-Pock and Douglas-Rachford entries match the table
(`tau = 1.0` default; `sigma`, `rho` passed through for Chambolle-Pock;
`sigma = 1 / tau`, `rho = 1.0` for Douglas-Rachford), but the
Forward-Backward method stores `tau` exactly as given — `None` by default —
instead of resolving it from the `beta`-based policy (which would give
`2 / beta = 1` here). -/
theorem C5_variant_init_stores :
    cps_m_init false (5 : ℝ) none (some 1) none none =
      ⟨5, 5, some 5, some 5, some 1, none, none, none⟩ ∧
    drs_m_init false (5 : ℝ) none 1 =
      ⟨5, 5, some 5, some 5, some 1, some 1, some 1, none⟩ ∧
    fbs_m_init (some 2) (5 : ℝ) none none (some 1) none =
      .ok ⟨5, 5, none, none, none, none, some 1, some 2⟩ ∧
    (none : Option ℝ) ≠ some (2 / 2) := by
  refine ⟨?_, ?_, ?_, by simp⟩ <;>
    simp [cps_m_init, drs_m_init, fbs_m_init, set_dual_variable, set_beta]

/-- C6 (code evaluation): with `h` absent and a `K` supplied, `__init__` leaves
the attribute `self._K` unassigned (`none`) instead of the null operator the
claim promises; with `h` present and `K` absent it does install the identity
operator with `_lipschitz = 1`. -/
theorem C6_K_resolution :
    pds_init true false none (some (OpShape.mk 3 4)) =
      .ok ⟨false, true, true, none⟩ ∧
    pds_init false false (some (some 4)) none =
      .ok ⟨true, true, false, some (.identityOp 1)⟩ ∧
    (none : Option ResolvedK) ≠ some .nullOp := by
  refine ⟨?_, ?_, by simp⟩ <;> simp [pds_init]

/-- C10: when `h` is supplied with an unspecified domain dimension
(`h.shape[1] is None`), the constructor accepts any supplied `K`, whatever its
shape — the compatibility check is bypassed. -/
theorem C10_dimension_agnostic (fPresent gPresent : Bool) (k : OpShape) :
    pds_init fPresent gPresent (some none) (some k) =
      .ok ⟨!fPresent, !gPresent, false, some (.given k)⟩ := by
  simp [pds_init]

end

end Pycsou
